import Mathlib

/-
Verification of the journal-starter CRUD service.

The repository ships an abstract repository interface
(src/api/repositories/interface_repository.py) and a test suite; the
concrete data model (api/models/entry.py), the concrete store
(api/repositories/postgres_repository.py), the service layer
(api/services/entry_service.py) and the HTTP router
(api/routers/journal_router.py) are referenced by the tests but their
sources are not in the tree.  Those parts are modelled here from the
specification, each marked `Modelled from the spec:` in its doc comment.
Timestamps are modelled as natural numbers (an abstract monotone clock);
the clock value and the UUID seed are explicit parameters.
-/

namespace Journal

/-- Modelled from the spec (api/models/entry.py is not in the tree):
the input-only projection of Entry used for creation requests, carrying
`work`, `struggle`, `intention` only. -/
structure EntryCreate where
  work : String
  struggle : String
  intention : String
deriving DecidableEq

/-- A creation request payload before validation: each of the three
fields may be absent (absence of a required field must be rejected). -/
structure EntryCreatePayload where
  work : Option String
  struggle : Option String
  intention : Option String
deriving DecidableEq

/-- Modelled from the spec (api/models/entry.py is not in the tree):
validation of a creation payload.  Each of `work`, `struggle`,
`intention` is required and constrained to at most 256 characters;
the empty string is valid.  `none` is the ValidationError outcome
(HTTP 422 at the surface). -/
def EntryCreate.validate (p : EntryCreatePayload) : Option EntryCreate :=
  match p.work, p.struggle, p.intention with
  | some w, some s, some i =>
      if w.length ≤ 256 ∧ s.length ≤ 256 ∧ i.length ≤ 256 then
        some ⟨w, s, i⟩
      else none
  | _, _, _ => none

/-- Lower-case hex digit of a value below 16. -/
def hexDigit (n : Nat) : Char :=
  if n < 10 then Char.ofNat (48 + n) else Char.ofNat (97 + (n - 10) % 16)

/-- Fixed-width lower-case hex rendering of `n` on `d` digits. -/
def hexStr (n d : Nat) : String :=
  String.mk ((List.range d).map (fun j => hexDigit (n / 16 ^ (d - 1 - j) % 16)))

/-- Modelled from the spec (api/models/entry.py is not in the tree):
the server-assigned identifier, a UUID in string form rendered in the
canonical 8-4-4-4-12 format from a 128-bit seed. -/
def genUUID (seed : Nat) : String :=
  hexStr (seed / 2 ^ 96 % 2 ^ 32) 8 ++ "-" ++
    hexStr (seed / 2 ^ 80 % 2 ^ 16) 4 ++ "-" ++
    hexStr (seed / 2 ^ 64 % 2 ^ 16) 4 ++ "-" ++
    hexStr (seed / 2 ^ 48 % 2 ^ 16) 4 ++ "-" ++
    hexStr (seed % 2 ^ 48) 12

/-- Modelled from the spec (api/models/entry.py is not in the tree):
a persisted journal record: opaque string id, the three free-text
fields, and the two timestamps. -/
structure Entry where
  id : String
  work : String
  struggle : String
  intention : String
  created_at : Nat
  updated_at : Nat
deriving DecidableEq

/-- Modelled from the spec: server-side defaulting at record
construction — the id is assigned from the UUID generator and both
timestamps are set to the current clock value `now`. -/
def Entry.ofCreate (c : EntryCreate) (seed now : Nat) : Entry :=
  ⟨genUUID seed, c.work, c.struggle, c.intention, now, now⟩

/-- The persisted state: one collection of Entry records keyed by `id`
(the spec's single table). -/
abbrev Store := List Entry

/-- A sparse update payload: only the fields present are to change. -/
structure UpdateData where
  work : Option String
  struggle : Option String
  intention : Option String
deriving DecidableEq

namespace PostgresDB

/-- Modelled from the spec (api/repositories/postgres_repository.py is
not in the tree; signature from DatabaseInterface.create_entry):
persists a new record built from the already-constructed entry. -/
def create_entry (st : Store) (e : Entry) : Store :=
  st ++ [e]

/-- Modelled from the spec (signature from
DatabaseInterface.get_all_entries): the collection of all persisted
records. -/
def get_all_entries (st : Store) : List Entry :=
  st

/-- Modelled from the spec (signature from DatabaseInterface.get_entry):
the record matching `entry_id`, or the absent sentinel `none`, never an
error. -/
def get_entry (st : Store) (entry_id : String) : Option Entry :=
  st.find? (fun e => e.id == entry_id)

/-- Modelled from the spec: merging a sparse update into a record —
fields present in the payload are replaced, omitted fields retain their
prior values, `updated_at` is refreshed to `now`, `id` and `created_at`
are untouched. -/
def applyUpdate (e : Entry) (u : UpdateData) (now : Nat) : Entry :=
  { e with
    work := u.work.getD e.work
    struggle := u.struggle.getD e.struggle
    intention := u.intention.getD e.intention
    updated_at := now }

/-- Modelled from the spec (signature from
DatabaseInterface.update_entry): merges `u` into the record with id
`entry_id`, refreshing `updated_at`; silently no-ops when no record has
that id. -/
def update_entry (st : Store) (entry_id : String) (u : UpdateData) (now : Nat) : Store :=
  st.map (fun e => if e.id == entry_id then applyUpdate e u now else e)

/-- Modelled from the spec (signature from
DatabaseInterface.delete_entry): removes the record with id `entry_id`;
no-op if absent. -/
def delete_entry (st : Store) (entry_id : String) : Store :=
  st.filter (fun e => e.id != entry_id)

/-- Modelled from the spec (signature from
DatabaseInterface.delete_all_entries): removes every record
unconditionally. -/
def delete_all_entries (_ : Store) : Store :=
  []

end PostgresDB

namespace EntryService

/-- Modelled from the spec (api/services/entry_service.py is not in the
tree): pure delegation to the repository. -/
def create_entry (st : Store) (e : Entry) : Store :=
  PostgresDB.create_entry st e

/-- Modelled from the spec: pure delegation; the absent sentinel is
passed through unchanged. -/
def get_entry (st : Store) (entry_id : String) : Option Entry :=
  PostgresDB.get_entry st entry_id

/-- Modelled from the spec: pure delegation. -/
def get_all_entries (st : Store) : List Entry :=
  PostgresDB.get_all_entries st

/-- Modelled from the spec: delegates the merge to the repository and
returns the updated record, or the absent sentinel when `entry_id` does
not exist (does not raise). -/
def update_entry (st : Store) (entry_id : String) (u : UpdateData) (now : Nat) :
    Store × Option Entry :=
  let st2 := PostgresDB.update_entry st entry_id u now
  (st2, PostgresDB.get_entry st2 entry_id)

/-- Modelled from the spec: pure delegation. -/
def delete_entry (st : Store) (entry_id : String) : Store :=
  PostgresDB.delete_entry st entry_id

/-- Modelled from the spec: pure delegation. -/
def delete_all_entries (st : Store) : Store :=
  PostgresDB.delete_all_entries st

end EntryService

/-- Outcome of POST /entries: success with a detail message and the
stored entry, or a validation failure (HTTP 422). -/
inductive CreateResult where
  | ok (detail : String) (entry : Entry)
  | validationFailure
deriving DecidableEq

/-- Modelled from the spec (api/routers/journal_router.py is not in the
tree): the create route validates the payload into the data model,
constructs the Entry with server-assigned id and timestamps, persists it
through the service and answers with detail "Entry created successfully";
a payload failing validation is rejected with 422 before reaching the
service. -/
def postEntries (st : Store) (p : EntryCreatePayload) (seed now : Nat) :
    Store × CreateResult :=
  match EntryCreate.validate p with
  | none => (st, CreateResult.validationFailure)
  | some c =>
      let e := Entry.ofCreate c seed now
      (EntryService.create_entry st e, CreateResult.ok "Entry created successfully" e)

/-- The `topics` field of an analysis payload before validation: the
tests feed it either a list of strings or (invalidly) a bare string. -/
inductive TopicsField where
  | list (ts : List String)
  | str (s : String)
deriving DecidableEq

/-- An analysis-construction payload before validation: every field may
be absent. -/
structure AnalysisPayload where
  entry_id : Option String
  sentiment : Option String
  summary : Option String
  topics : Option TopicsField
  created_at : Option Nat
deriving DecidableEq

/-- Modelled from the spec (api/models/entry.py is not in the tree):
the result of analyzing an entry — required `entry_id`, `sentiment`,
`summary` and `topics` (an ordered sequence of strings), plus an
auto-set `created_at` timestamp. -/
structure AnalysisResponse where
  entry_id : String
  sentiment : String
  summary : String
  topics : List String
  created_at : Nat
deriving DecidableEq

/-- Modelled from the spec (api/models/entry.py is not in the tree):
constructing an AnalysisResponse requires all of `entry_id`,
`sentiment`, `summary` and `topics`; `topics` must be a list, not a
string; `created_at` defaults to the clock value `now` when absent.
`none` is the ValidationError outcome. -/
def AnalysisResponse.validate (p : AnalysisPayload) (now : Nat) : Option AnalysisResponse :=
  match p.entry_id, p.sentiment, p.summary, p.topics with
  | some eid, some sent, some summ, some (TopicsField.list ts) =>
      some ⟨eid, sent, summ, ts, p.created_at.getD now⟩
  | _, _, _, _ => none

/-- Outcome of POST /entries/\x7bid\x7d/analyze: absent id (HTTP 404),
placeholder (HTTP 501), or the specified-but-unreached success. -/
inductive AnalyzeResult where
  | notFound
  | notImplemented
  | success (r : AnalysisResponse)
deriving DecidableEq

/-- Modelled from the spec (api/routers/journal_router.py is not in the
tree): the analyze route looks the id up; a nonexistent id signals
not-found, any other invocation signals not-implemented.  The success
outcome is specified but never produced. -/
def analyzeEntry (st : Store) (entry_id : String) : AnalyzeResult :=
  match EntryService.get_entry st entry_id with
  | none => AnalyzeResult.notFound
  | some _ => AnalyzeResult.notImplemented

/-- The persistent-state invariant of the spec: every record has
`updated_at >= created_at`, and ids are pairwise distinct (each id
identifies at most one live Entry). -/
def WF (st : Store) : Prop :=
  (∀ e ∈ st, e.created_at ≤ e.updated_at) ∧ (st.map Entry.id).Nodup

/-! Helper lemmas shared by the claim theorems. -/

theorem hexStr_length (n d : Nat) : (hexStr n d).length = d := by
  simp [hexStr, String.length]

theorem genUUID_length (seed : Nat) : (genUUID seed).length = 36 := by
  simp [genUUID, String.length_append, hexStr_length]
  decide

theorem genUUID_ne_empty (seed : Nat) : genUUID seed ≠ "" := by
  intro h
  have h36 := genUUID_length seed
  rw [h] at h36
  exact absurd h36 (by decide)

theorem applyUpdate_id (e : Entry) (u : UpdateData) (now : Nat) :
    (PostgresDB.applyUpdate e u now).id = e.id := rfl

theorem applyUpdate_created_at (e : Entry) (u : UpdateData) (now : Nat) :
    (PostgresDB.applyUpdate e u now).created_at = e.created_at := rfl

theorem find?_eq_none_of_all {α} {p : α → Bool} {l : List α}
    (h : ∀ x ∈ l, p x = false) : l.find? p = none := by
  induction l with
  | nil => rfl
  | cons x xs ih =>
    rw [List.find?_cons, h x (List.mem_cons_self x xs)]
    exact ih fun y hy => h y (List.mem_cons_of_mem x hy)

theorem all_of_find?_eq_none {α} {p : α → Bool} {l : List α}
    (h : l.find? p = none) : ∀ x ∈ l, p x = false := by
  induction l with
  | nil => intro x hx; cases hx
  | cons x xs ih =>
    rw [List.find?_cons] at h
    intro y hy
    cases hx : p x with
    | true => rw [hx] at h; cases h
    | false =>
      rw [hx] at h
      rcases List.mem_cons.mp hy with hyx | hyxs
      · rw [hyx]; exact hx
      · exact ih h y hyxs

theorem update_get_eq (st : Store) (id : String) (u : UpdateData) (now : Nat) :
    PostgresDB.get_entry (PostgresDB.update_entry st id u now) id
      = (PostgresDB.get_entry st id).map (fun e => PostgresDB.applyUpdate e u now) := by
  induction st with
  | nil => rfl
  | cons x xs ih =>
    unfold PostgresDB.get_entry PostgresDB.update_entry at ih ⊢
    rw [List.map_cons]
    cases hx : x.id == id with
    | true =>
      rw [if_pos rfl, List.find?_cons, List.find?_cons]
      have hid : (PostgresDB.applyUpdate x u now).id == id := by
        rw [applyUpdate_id]; exact hx
      rw [hid, hx]
      rfl
    | false =>
      rw [if_neg (by decide), List.find?_cons, List.find?_cons, hx]
      exact ih

theorem update_get_ne (st : Store) (id id2 : String) (u : UpdateData) (now : Nat)
    (hne : id2 ≠ id) :
    PostgresDB.get_entry (PostgresDB.update_entry st id u now) id2
      = PostgresDB.get_entry st id2 := by
  induction st with
  | nil => rfl
  | cons x xs ih =>
    unfold PostgresDB.get_entry PostgresDB.update_entry at ih ⊢
    rw [List.map_cons]
    cases hx : x.id == id with
    | true =>
      have hxid : x.id = id := eq_of_beq hx
      have hx2 : (x.id == id2) = false := by
        simp [hxid]; exact fun h => hne h.symm
      rw [if_pos rfl, List.find?_cons, List.find?_cons]
      have hid2 : ((PostgresDB.applyUpdate x u now).id == id2) = false := by
        rw [applyUpdate_id]; exact hx2
      rw [hid2, hx2]
      exact ih
    | false =>
      rw [if_neg (by decide), List.find?_cons, List.find?_cons]
      cases hx2 : x.id == id2 with
      | true => rfl
      | false => exact ih

theorem update_map_id (st : Store) (id : String) (u : UpdateData) (now : Nat) :
    (PostgresDB.update_entry st id u now).map Entry.id = st.map Entry.id := by
  induction st with
  | nil => rfl
  | cons x xs ih =>
    unfold PostgresDB.update_entry at ih ⊢
    rw [List.map_cons, List.map_cons, List.map_cons]
    cases hx : x.id == id with
    | true => rw [if_pos rfl, applyUpdate_id, ih]
    | false => rw [if_neg (by decide), ih]

/-! Claim theorems. -/

/-- C1: for every valid EntryCreate payload (each field at most 256
characters), the create route persists an Entry whose id is a non-empty
string, whose created_at equals updated_at, whose work, struggle and
intention echo the input exactly, and the HTTP response carries detail
"Entry created successfully". -/
theorem create_entry_contract (st : Store) (w s i : String) (seed now : Nat)
    (hw : w.length ≤ 256) (hs : s.length ≤ 256) (hi : i.length ≤ 256) :
    ∃ e : Entry,
      postEntries st ⟨some w, some s, some i⟩ seed now
        = (EntryService.create_entry st e, CreateResult.ok "Entry created successfully" e) ∧
      e.id ≠ "" ∧ e.created_at = e.updated_at ∧
      e.work = w ∧ e.struggle = s ∧ e.intention = i := by
  refine ⟨Entry.ofCreate ⟨w, s, i⟩ seed now, ?_, genUUID_ne_empty seed, rfl, rfl, rfl, rfl⟩
  simp [postEntries, EntryCreate.validate, hw, hs, hi]

/-- C1 witness: the contract evaluated at the concrete payload of the
test scenario. -/
theorem create_entry_contract_witness :
    ∃ e : Entry,
      postEntries [] ⟨some "a", some "b", some "c"⟩ 0 0
        = (EntryService.create_entry [] e, CreateResult.ok "Entry created successfully" e) ∧
      e.id ≠ "" ∧ e.created_at = e.updated_at ∧
      e.work = "a" ∧ e.struggle = "b" ∧ e.intention = "c" :=
  create_entry_contract [] "a" "b" "c" 0 0 (by decide) (by decide) (by decide)

/-- C5: for each of work, struggle and intention, a value longer than
256 characters is rejected at validation, a value of length at most 256
(in particular exactly 256, and the empty string) is accepted, and a
payload missing any of the three fields is rejected. -/
theorem entry_validation_boundaries (w s i : String) :
    (256 < w.length → EntryCreate.validate ⟨some w, some s, some i⟩ = none) ∧
    (256 < s.length → EntryCreate.validate ⟨some w, some s, some i⟩ = none) ∧
    (256 < i.length → EntryCreate.validate ⟨some w, some s, some i⟩ = none) ∧
    (w.length ≤ 256 → s.length ≤ 256 → i.length ≤ 256 →
      EntryCreate.validate ⟨some w, some s, some i⟩ = some ⟨w, s, i⟩) ∧
    EntryCreate.validate ⟨some "", some "", some ""⟩ = some ⟨"", "", ""⟩ ∧
    EntryCreate.validate ⟨none, some s, some i⟩ = none ∧
    EntryCreate.validate ⟨some w, none, some i⟩ = none ∧
    EntryCreate.validate ⟨some w, some s, none⟩ = none := by
  refine ⟨?_, ?_, ?_, ?_, by decide, rfl, rfl, rfl⟩
  · intro h
    simp only [EntryCreate.validate]
    rw [if_neg]
    rintro ⟨h1, -⟩
    omega
  · intro h
    simp only [EntryCreate.validate]
    rw [if_neg]
    rintro ⟨-, h2, -⟩
    omega
  · intro h
    simp only [EntryCreate.validate]
    rw [if_neg]
    rintro ⟨-, -, h3⟩
    omega
  · intro hw hs hi
    simp only [EntryCreate.validate]
    rw [if_pos ⟨hw, hs, hi⟩]

set_option maxRecDepth 4000 in
/-- C5 witness: a 300-character work field is rejected, and a field of
exactly 256 characters is accepted, at concrete inputs. -/
theorem entry_validation_boundaries_witness :
    EntryCreate.validate
        ⟨some (String.mk (List.replicate 300 'a')), some "b", some "c"⟩ = none ∧
    EntryCreate.validate
        ⟨some (String.mk (List.replicate 256 'a')), some "", some ""⟩
      = some ⟨String.mk (List.replicate 256 'a'), "", ""⟩ :=
  ⟨(entry_validation_boundaries (String.mk (List.replicate 300 'a')) "b" "c").1
      (by decide),
   (entry_validation_boundaries (String.mk (List.replicate 256 'a')) "" "").2.2.2.1
      (by decide) (by decide) (by decide)⟩

theorem find?_append_of_none {α} {p : α → Bool} {l1 : List α} (l2 : List α)
    (h : l1.find? p = none) : (l1 ++ l2).find? p = l2.find? p := by
  induction l1 with
  | nil => rfl
  | cons x xs ih =>
    rw [List.find?_cons] at h
    cases hx : p x with
    | true => rw [hx] at h; cases h
    | false =>
      rw [hx] at h
      rw [List.cons_append, List.find?_cons, hx]
      exact ih h

theorem map_update_noop (st : Store) (id : String) (u : UpdateData) (now : Nat)
    (hall : ∀ x ∈ st, (x.id == id) = false) :
    PostgresDB.update_entry st id u now = st := by
  induction st with
  | nil => rfl
  | cons x xs ih =>
    unfold PostgresDB.update_entry at ih ⊢
    rw [List.map_cons, if_neg (by simp [hall x (List.mem_cons_self x xs)]),
      ih fun y hy => hall y (List.mem_cons_of_mem x hy)]

theorem filter_ne_noop (st : Store) (id : String)
    (hall : ∀ x ∈ st, (x.id == id) = false) :
    PostgresDB.delete_entry st id = st := by
  induction st with
  | nil => rfl
  | cons x xs ih =>
    unfold PostgresDB.delete_entry at ih ⊢
    rw [List.filter_cons, if_pos (by simp [bne, hall x (List.mem_cons_self x xs)]),
      ih fun y hy => hall y (List.mem_cons_of_mem x hy)]

theorem delete_absent (st : Store) (id : String) :
    ∀ x ∈ PostgresDB.delete_entry st id, (x.id == id) = false := by
  intro x hx
  have h2 := (List.mem_filter.mp hx).2
  simpa [bne] using h2

/-- C2: updating a stored entry with a sparse payload containing only
`work` changes `work` to the new value, leaves `struggle`, `intention`
and `created_at` at their prior stored values, and yields an
`updated_at` no smaller than the prior stored one (given a monotone
clock). -/
theorem update_entry_partial_work (st : Store) (e : Entry) (w : String) (now : Nat)
    (he : PostgresDB.get_entry st e.id = some e)
    (hclock : e.updated_at ≤ now) :
    ∃ e2 : Entry,
      (EntryService.update_entry st e.id ⟨some w, none, none⟩ now).2 = some e2 ∧
      e2.work = w ∧ e2.struggle = e.struggle ∧ e2.intention = e.intention ∧
      e2.created_at = e.created_at ∧ e.updated_at ≤ e2.updated_at := by
  refine ⟨PostgresDB.applyUpdate e ⟨some w, none, none⟩ now, ?_, rfl, rfl, rfl, rfl, hclock⟩
  show PostgresDB.get_entry
      (PostgresDB.update_entry st e.id ⟨some w, none, none⟩ now) e.id = _
  rw [update_get_eq, he]
  rfl

/-- C2 witness: the partial update evaluated on a concrete one-entry
store. -/
theorem update_entry_partial_work_witness :
    ∃ e2 : Entry,
      (EntryService.update_entry [⟨"x", "a", "b", "c", 0, 0⟩] "x"
          ⟨some "n", none, none⟩ 1).2 = some e2 ∧
      e2.work = "n" ∧ e2.struggle = "b" ∧ e2.intention = "c" ∧
      e2.created_at = 0 ∧ 0 ≤ e2.updated_at :=
  update_entry_partial_work [⟨"x", "a", "b", "c", 0, 0⟩] ⟨"x", "a", "b", "c", 0, 0⟩
    "n" 1 (by decide) (by decide)

/-- C3: reading back the id returned by create yields the created
record, and reading an id that was never created yields the absent
sentinel (the total function returns, never raises). -/
theorem get_entry_roundtrip (st : Store) (e : Entry) (id2 : String)
    (hfresh : ∀ x ∈ st, x.id ≠ e.id) :
    EntryService.get_entry (EntryService.create_entry st e) e.id = some e ∧
    ((∀ x ∈ st, x.id ≠ id2) → EntryService.get_entry st id2 = none) := by
  constructor
  · show (st ++ [e]).find? (fun x => x.id == e.id) = some e
    rw [find?_append_of_none [e]
      (find?_eq_none_of_all fun x hx => beq_eq_false_iff_ne.mpr (hfresh x hx))]
    simp [List.find?_cons]
  · intro hnone
    exact find?_eq_none_of_all fun x hx => beq_eq_false_iff_ne.mpr (hnone x hx)

/-- C3 witness: the roundtrip evaluated on the empty store with a
concrete entry and a concrete never-created id. -/
theorem get_entry_roundtrip_witness :
    EntryService.get_entry
        (EntryService.create_entry [] ⟨"x", "a", "b", "c", 0, 0⟩) "x"
      = some ⟨"x", "a", "b", "c", 0, 0⟩ ∧
    EntryService.get_entry ([] : Store) "y" = none :=
  have h := get_entry_roundtrip [] ⟨"x", "a", "b", "c", 0, 0⟩ "y"
    (fun x hx => absurd hx (List.not_mem_nil x))
  ⟨h.1, h.2 fun x hx => absurd hx (List.not_mem_nil x)⟩

/-- C6: updating a nonexistent id leaves the repository unchanged (no
raise, silent no-op) and the service returns the absent sentinel. -/
theorem update_nonexistent_sentinel (st : Store) (id : String) (u : UpdateData) (now : Nat)
    (h : PostgresDB.get_entry st id = none) :
    PostgresDB.update_entry st id u now = st ∧
    (EntryService.update_entry st id u now).2 = none := by
  have hst : PostgresDB.update_entry st id u now = st :=
    map_update_noop st id u now (all_of_find?_eq_none h)
  refine ⟨hst, ?_⟩
  show PostgresDB.get_entry (PostgresDB.update_entry st id u now) id = none
  rw [hst]
  exact h

/-- C6 witness: the nonexistent-id update evaluated on a concrete
store. -/
theorem update_nonexistent_sentinel_witness :
    PostgresDB.update_entry [⟨"x", "a", "b", "c", 0, 0⟩] "y" ⟨some "n", none, none⟩ 1
      = [⟨"x", "a", "b", "c", 0, 0⟩] ∧
    (EntryService.update_entry [⟨"x", "a", "b", "c", 0, 0⟩] "y"
        ⟨some "n", none, none⟩ 1).2 = none :=
  update_nonexistent_sentinel [⟨"x", "a", "b", "c", 0, 0⟩] "y"
    ⟨some "n", none, none⟩ 1 (by decide)

/-- C7: delete followed by get yields the absent sentinel; deleting a
nonexistent id is a no-op raising no error; and a second delete of the
same id leaves the store unchanged (idempotence). -/
theorem delete_entry_semantics (st : Store) (id : String) :
    PostgresDB.get_entry (PostgresDB.delete_entry st id) id = none ∧
    (PostgresDB.get_entry st id = none → PostgresDB.delete_entry st id = st) ∧
    PostgresDB.delete_entry (PostgresDB.delete_entry st id) id
      = PostgresDB.delete_entry st id := by
  refine ⟨find?_eq_none_of_all (delete_absent st id), ?_, ?_⟩
  · intro h
    exact filter_ne_noop st id (all_of_find?_eq_none h)
  · exact filter_ne_noop (PostgresDB.delete_entry st id) id (delete_absent st id)

/-- C7 witness: deleting a nonexistent id on a concrete one-entry store
leaves it unchanged. -/
theorem delete_entry_semantics_witness :
    PostgresDB.delete_entry [(⟨"x", "a", "b", "c", 0, 0⟩ : Entry)] "y"
      = [⟨"x", "a", "b", "c", 0, 0⟩] :=
  (delete_entry_semantics [⟨"x", "a", "b", "c", 0, 0⟩] "y").2.1 (by decide)

/-- C8: for every prior store state, delete-all followed by get-all
yields the empty collection. -/
theorem delete_all_then_get_all_empty (st : Store) :
    EntryService.get_all_entries (EntryService.delete_all_entries st) = [] := rfl

/-- C4: the persistent-state invariant (`updated_at >= created_at` for
every record, ids pairwise distinct) is preserved by create (with a
fresh id and coherent timestamps), by update (with a monotone clock),
by delete and by delete-all; update never mutates any record's
`created_at`; and a successful update refreshes the target record's
`updated_at` to the current clock value. -/
theorem entry_invariants (st : Store) (e : Entry) (id : String) (u : UpdateData) (now : Nat)
    (hwf : WF st) :
    ((∀ x ∈ st, x.id ≠ e.id) → e.created_at ≤ e.updated_at →
      WF (PostgresDB.create_entry st e)) ∧
    ((∀ x ∈ st, x.updated_at ≤ now) → WF (PostgresDB.update_entry st id u now)) ∧
    WF (PostgresDB.delete_entry st id) ∧
    WF (PostgresDB.delete_all_entries st) ∧
    (∀ id2, (PostgresDB.get_entry (PostgresDB.update_entry st id u now) id2).map
        Entry.created_at
      = (PostgresDB.get_entry st id2).map Entry.created_at) ∧
    (∀ e0, PostgresDB.get_entry st id = some e0 →
      (PostgresDB.get_entry (PostgresDB.update_entry st id u now) id).map Entry.updated_at
        = some now) := by
  refine ⟨?_, ?_, ?_, ?_, ?_, ?_⟩
  · intro hfresh hce
    constructor
    · intro x hx
      rcases List.mem_append.mp hx with h1 | h2
      · exact hwf.1 x h1
      · rw [List.mem_singleton.mp h2]; exact hce
    · show ((st ++ [e]).map Entry.id).Nodup
      rw [List.map_append]
      refine List.Nodup.append hwf.2 (List.nodup_singleton _) ?_
      intro a ha hb
      rcases List.mem_map.mp ha with ⟨x, hx, rfl⟩
      exact hfresh x hx (List.mem_singleton.mp hb)
  · intro hclock
    constructor
    · intro y hy
      rcases List.mem_map.mp hy with ⟨x, hx, rfl⟩
      by_cases hxid : (x.id == id) = true
      · rw [if_pos hxid]
        show x.created_at ≤ now
        exact le_trans (hwf.1 x hx) (hclock x hx)
      · rw [if_neg hxid]
        exact hwf.1 x hx
    · rw [update_map_id]
      exact hwf.2
  · constructor
    · intro x hx
      exact hwf.1 x (List.mem_of_mem_filter hx)
    · exact hwf.2.sublist (List.Sublist.map Entry.id (List.filter_sublist st))
  · exact ⟨fun x hx => absurd hx (List.not_mem_nil x), List.nodup_nil⟩
  · intro id2
    by_cases hne : id2 = id
    · subst hne
      rw [update_get_eq]
      cases PostgresDB.get_entry st id2 <;> rfl
    · rw [update_get_ne st id id2 u now hne]
  · intro e0 h0
    rw [update_get_eq, h0]
    rfl

/-- C4 witness: the preserved invariant evaluated on a concrete
creation over the empty store. -/
theorem entry_invariants_witness :
    WF (PostgresDB.create_entry [] ⟨"x", "a", "b", "c", 0, 0⟩) :=
  (entry_invariants [] ⟨"x", "a", "b", "c", 0, 0⟩ "y" ⟨none, none, none⟩ 0
      ⟨fun x hx => absurd hx (List.not_mem_nil x), List.nodup_nil⟩).1
    (fun x hx => absurd hx (List.not_mem_nil x)) (Nat.le_refl 0)

/-- C9: the analyze operation has exactly two reachable outcomes — an
existing id signals not-implemented (HTTP 501), a nonexistent id
signals not-found (HTTP 404) — and the success outcome is never
produced. -/
theorem analyze_two_outcomes (st : Store) (entry_id : String) :
    ((∃ e, EntryService.get_entry st entry_id = some e) →
      analyzeEntry st entry_id = AnalyzeResult.notImplemented) ∧
    (EntryService.get_entry st entry_id = none →
      analyzeEntry st entry_id = AnalyzeResult.notFound) ∧
    ∀ r, analyzeEntry st entry_id ≠ AnalyzeResult.success r := by
  refine ⟨?_, ?_, ?_⟩
  · rintro ⟨e, he⟩
    unfold analyzeEntry
    rw [he]
  · intro h
    unfold analyzeEntry
    rw [h]
  · intro r
    unfold analyzeEntry
    cases EntryService.get_entry st entry_id <;> simp

/-- C9 witness: analyzing on the empty store signals not-found. -/
theorem analyze_two_outcomes_witness :
    analyzeEntry [] "x" = AnalyzeResult.notFound :=
  (analyze_two_outcomes [] "x").2.1 rfl

/-- C10: constructing an AnalysisResponse requires all of entry_id,
sentiment, summary and topics — a payload missing summary or topics is
rejected, a payload whose topics is a bare string is rejected — while
created_at is auto-set to the clock value when absent. -/
theorem analysis_response_requires_all_fields (p : AnalysisPayload) (now : Nat) :
    (p.summary = none → AnalysisResponse.validate p now = none) ∧
    (p.topics = none → AnalysisResponse.validate p now = none) ∧
    (∀ s, p.topics = some (TopicsField.str s) → AnalysisResponse.validate p now = none) ∧
    (∀ eid sent summ ts,
      AnalysisResponse.validate
          ⟨some eid, some sent, some summ, some (TopicsField.list ts), none⟩ now
        = some ⟨eid, sent, summ, ts, now⟩) := by
  obtain ⟨pe, ps, pu, pt, pc⟩ := p
  refine ⟨?_, ?_, ?_, fun eid sent summ ts => rfl⟩
  · rintro rfl
    cases pe <;> cases ps <;> cases pt <;> rfl
  · rintro rfl
    cases pe <;> cases ps <;> cases pu <;> rfl
  · rintro s rfl
    cases pe <;> cases ps <;> cases pu <;> rfl

/-- C10 witness: a concrete payload missing `summary` is rejected. -/
theorem analysis_response_requires_all_fields_witness :
    AnalysisResponse.validate
        ⟨some "e1", some "positive", none, some (TopicsField.list []), none⟩ 5 = none :=
  (analysis_response_requires_all_fields
      ⟨some "e1", some "positive", none, some (TopicsField.list []), none⟩ 5).1 rfl

end Journal
